import Mathlib

/-!
Verification of the wandb-scripts repository (wandb_fork.py, wandb_update.py,
wandb_sync.py) against its natural-language specification.

The Python scripts are shallowly embedded: pure filtering logic is translated
into Lean functions over explicit data; interactions with the filesystem, the
remote service and subprocesses are modelled as an explicit list of effect
values (`Eff`); Python exceptions (`raise`) are modelled with `Except`/`Option`
results.  Python's `re.search` regex engine is external to the repository and
is modelled as an abstract predicate parameter `search : String → String →
Bool` (`search regex s = true` means `re.search(regex, s)` found a match).
-/

/-- Models Python `str.lower()` for the ASCII strings used as interactive
responses: lower-case every character. -/
def strLower (s : String) : String :=
  ⟨s.data.map Char.toLower⟩

/-- Run summary as used by the scripts: `run.id` and `run.name` of a
`wandb.apis.public.runs.Run`.  Ids are opaque strings; names are not
guaranteed unique. -/
structure SRun where
  id : String
  name : String
deriving DecidableEq

/-- One row of `run.scan_history()` in wandb_fork.py: its `"_step"` index and
the logged metric-name/value mapping (a Python dict, modelled as an
association list with distinct keys; `lookup` returns the value of a key). -/
structure MetricRow where
  step : Int
  metrics : List (String × Int)
deriving DecidableEq

/-- The `steps` list collected by the loop in wandb_fork.py `fork_run`
(lines 201-207): the `"_step"` of every history row that contains
`metricName` with value exactly `value`
(`if args.forked_metric_name in row and row[...] == args.forked_value`). -/
def matchingSteps (metricName : String) (value : Int) (rows : List MetricRow) : List Int :=
  (rows.filter (fun row => row.metrics.lookup metricName = some value)).map MetricRow.step

/-- Step resolution of wandb_fork.py `fork_run` (lines 196-231).  If the
metric name is `"step"` the forked value is used directly.  Otherwise the
matching steps are collected; one match is returned as is; several matches
are reduced with `max`/`min` according to `--matching-steps-reduction-func`
(an unset function is a `RuntimeError`); zero matches is a `RuntimeError`. -/
def resolveStep (metricName : String) (value : Int) (reductionFunc : Option String)
    (rows : List MetricRow) : Except String Int :=
  if metricName = "step" then
    .ok value
  else
    match matchingSteps metricName value rows with
    | [s] => .ok s
    | [] => .error "Failed to find steps corresponding to metric"
    | s :: rest =>
      if reductionFunc = some "max" then
        .ok (rest.foldl max s)
      else if reductionFunc = some "min" then
        .ok (rest.foldl min s)
      else
        .error "Must specify --matching-steps-reduction-func (with value 'min' or 'max')"

/-- Run lookup by id in wandb_fork.py `fork_run` (lines 168-177):
`matching_runs = [run for run in runs if run.id == args.run_id]`; exactly one
match is returned, any other count raises a `RuntimeError` whose message
reports the match count. -/
def findRunById (runId : String) (runs : List SRun) : Except String SRun :=
  let matchingRuns := runs.filter (fun run => run.id = runId)
  match matchingRuns with
  | [run] => .ok run
  | _ =>
    .error ("Found " ++ toString matchingRuns.length ++ " runs with run.id == " ++ runId
      ++ ", expected one.")

/-- The argparse destination names defined by wandb_fork.py `parse_args`
(lines 72-157), one per `add_argument` call (derived from the first long
option of each). -/
def parseArgsDests : List String :=
  ["wandb_entity", "wandb_project", "forked_value", "forked_metric_name",
   "matching_steps_reduction_func", "forked_run_dir", "forked_run_name",
   "run_id", "run_name", "resume", "no_resume"]

/-- Models Python attribute access `getattr(args, attr)` on the `Namespace`
returned by wandb_fork.py `parse_args`: accessing a destination that no
`add_argument` call defined raises `AttributeError`. -/
def nsGetattr (attr : String) : Except String Unit :=
  if attr ∈ parseArgsDests then .ok () else .error ("AttributeError: " ++ attr)

/-- The forked-run-directory check of wandb_fork.py `fork_run` (lines
238-253).  When the directory does not exist the code reads
`args.create_forked_run_dir`; `createFlagValue` is the value that attribute
would have if it existed.  The result is `ok true` when `mkdir` was executed,
`ok false` when the directory already existed, and `error` on the
`AttributeError` or on the `RuntimeError` of the non-existing directory. -/
def forkDirCheck (dirExists : Bool) (createFlagValue : Bool) : Except String Bool :=
  if ¬ dirExists then
    match nsGetattr "create_forked_run_dir" with
    | .error e => .error e
    | .ok _ =>
      if createFlagValue then
        .ok true
      else
        .error "Forked run directory does not exist."
  else
    .ok false

/-- File or artifact of a run in wandb_update.py: its `name` and its update
timestamp (`updatedAt` for a `File`, `updated_at` for an `Artifact`), already
parsed by `datetime.strptime` into a totally ordered value, modelled as an
integer. -/
structure WObj where
  name : String
  updatedAt : Int
deriving DecidableEq

/-- Side effects the scripts perform against the filesystem, the remote
service and subprocesses.  Pure prints are recorded too, since the dry-run
contract is about printing instead of acting. -/
inductive Eff where
  | print (msg : String)
  | printObjs (objs : List WObj)
  | printCommands (commands : List (List String))
  | mkdir (dir : String)
  | download (file : String)
  | symlinkCreate (src : String) (dst : String)
  | unlink (path : String)
  | subprocessRun (command : List String)
  | deleteFile (name : String)
  | deleteArtifact (name : String)
  | wandbInit
deriving DecidableEq

/-- The interactive confirmation gate of wandb_fork.py `fork_run` (lines
287-292): `if response.lower() not in ["y", "yes"]` the process prints a skip
message and exits with status 0 (no remote call); otherwise `wandb.init` is
invoked. -/
def forkConfirmPhase (response : String) : List Eff :=
  if strLower response ∉ (["y", "yes"] : List String) then
    [Eff.print "Skipping fork run and exiting."]
  else
    [Eff.wandbInit]

/-- Stable insertion of `x` into a list sorted by decreasing `updatedAt`:
`x` goes in front of the first element whose timestamp is not larger,
so earlier elements win ties. -/
def insertDesc (x : WObj) : List WObj → List WObj
  | [] => [x]
  | y :: ys => if x.updatedAt < y.updatedAt then y :: insertDesc x ys else x :: y :: ys

/-- Models Python `sorted(datetimes, key=lambda x: x.datetime, reverse=True)`
used in wandb_update.py `remove_latest_file_or_artifact` (line 186): a stable
sort by decreasing update timestamp, realised as an insertion sort. -/
def sortDesc (l : List WObj) : List WObj :=
  l.foldr insertDesc []

/-- The `last_mod_file` computation in wandb_update.py
`remove_latest_file_or_artifact` (lines 164-187): a single object is taken
directly, otherwise the head of the descending sort (`datetimes[0].file`);
`none` models the `IndexError` on an empty input. -/
def lastModFile (deleteObjs : List WObj) : Option WObj :=
  if deleteObjs.length = 1 then
    deleteObjs.head?
  else
    (sortDesc deleteObjs).head?

/-- wandb_update.py `remove_latest_file_or_artifact` (lines 161-195): drop the
most recently updated object from the deletion candidates
(`[f for f in delete_objs if f != last_mod_file]`).  `none` models the
`IndexError` on empty input and the failure of the
`assert len(delete_objs) == num_delete_prev - 1` check. -/
def remove_latest_file_or_artifact (deleteObjs : List WObj) : Option (List WObj) :=
  match lastModFile deleteObjs with
  | none => none
  | some lastMod =>
    let remaining := deleteObjs.filter (fun f => f ≠ lastMod)
    if remaining.length = deleteObjs.length - 1 then some remaining else none

/-- wandb_update.py `find_objects` (lines 243-265): filter a run's objects by
`re.search(regex, f.name)`; on a non-empty result with `remove_latest` set,
apply `remove_latest_file_or_artifact`.  Printing is elided (it does not
change the returned objects). -/
def find_objects (search : String → String → Bool) (objs : List WObj) (regex : String)
    (removeLatest : Bool) : Option (List WObj) :=
  let foundObjs := objs.filter (fun f => search regex f.name)
  if 0 < foundObjs.length then
    if removeLatest then remove_latest_file_or_artifact foundObjs else some foundObjs
  else
    some foundObjs

/-- The inner loop of wandb_update.py `delete_objects` (lines 280-288 for
files, 290-298 for artifacts): for one run, extend the accumulated deletion
list with `find_objects` for every delete regex in order. -/
def regexLoop (search : String → String → Bool) (removeLatest : Bool) (files : List WObj) :
    List String → Option (List WObj)
  | [] => some []
  | regex :: rest =>
    match find_objects search files regex removeLatest with
    | none => none
    | some deleteObjs =>
      match regexLoop search removeLatest files rest with
      | none => none
      | some acc => some (deleteObjs ++ acc)

/-- The outer collection loop of wandb_update.py `delete_objects` (lines
276-298): iterate the filtered runs (each contributing its object list) and
concatenate the per-run deletion lists. -/
def runsLoop (search : String → String → Bool) (removeLatest : Bool) (regexes : List String) :
    List (List WObj) → Option (List WObj)
  | [] => some []
  | files :: rest =>
    match regexLoop search removeLatest files regexes with
    | none => none
    | some deleteObjs =>
      match runsLoop search removeLatest regexes rest with
      | none => none
      | some acc => some (deleteObjs ++ acc)

/-- The confirmation and deletion phase of wandb_update.py `delete_objects`
(lines 300-325): with no candidates only a message is printed; otherwise the
full candidate list is printed, and unless `--dry-run` is set the user is
prompted, deletion running only when `response.lower() == "y"`. -/
def deleteObjectsConfirm (dryRun : Bool) (response : String) (files : List WObj)
    (arts : List WObj) : List Eff :=
  if (files ++ arts).length = 0 then
    [Eff.print "Found no matching files or artifacts to delete"]
  else
    [Eff.printObjs (files ++ arts)] ++
      (if ¬ dryRun then
        (if strLower response = "y" then
          [Eff.print "Deleting files (response=y)"]
            ++ files.map (fun f => Eff.deleteFile f.name)
            ++ arts.map (fun f => Eff.deleteArtifact f.name)
        else
          [Eff.print "Skipping deletion (response=n)"])
      else [])

/-- The per-keyword match list of wandb_sync.py `get_matching_runs` (lines
252-254): `[run for run in runs if re.search(keyword, run.name) is not None]`. -/
def matchingRunsFor (search : String → String → Bool) (runs : List SRun)
    (keyword : String) : List SRun :=
  runs.filter (fun run => search keyword run.name)

/-- The keyword loop of wandb_sync.py `get_matching_runs` (lines 251-260):
keywords whose match list is not a singleton are reported and skipped
(`continue`), a unique match is appended to `keep_runs`. -/
def collectKeepRuns (search : String → String → Bool) (runs : List SRun) :
    List String → List SRun
  | [] => []
  | keyword :: rest =>
    match matchingRunsFor search runs keyword with
    | [run] => run :: collectKeepRuns search runs rest
    | _ => collectKeepRuns search runs rest

/-- wandb_sync.py `get_matching_runs` (lines 241-269): with no `--run-names`
all runs are returned; otherwise the keyword loop collects one run per
keyword and the final check `len(set(keep_run_names)) != len(args.run_names)`
raises a `ValueError` (`set` is modelled by `List.dedup`, whose length is the
number of distinct elements). -/
def get_matching_runs (search : String → String → Bool) (runNames : Option (List String))
    (runs : List SRun) : Except String (List SRun) :=
  match runNames with
  | none => .ok runs
  | some keywords =>
    let keepRuns := collectKeepRuns search runs keywords
    if ((keepRuns.map SRun.name).dedup).length ≠ keywords.length then
      .error "One or more run names / keywords matched the same run, returning fewer runs than requested"
    else
      .ok keepRuns

/-- Entry of the `files` subdirectory of a local wandb run folder, as scanned
by wandb_sync.py `upload_runs` (lines 460-463): `f.is_symlink()` and whether
`f.resolve().exists()`. -/
structure FileEntry where
  name : String
  isSymlink : Bool
  targetExists : Bool
deriving DecidableEq

/-- A local `run-*` folder inside a wandb dir, with the entries of its
`files` subdirectory. -/
structure RunFolder where
  name : String
  files : List FileEntry
deriving DecidableEq

/-- One surviving entry of `zip(all_wandb_dirs, all_wandb_run_folders)` in
wandb_sync.py `upload_runs` after the collection phase (lines 385-424, which
only reads the filesystem and prints): the run folders kept for this wandb
dir, together with the filesystem facts the checkpoint-symlink phase reads:
the run id the `latest-run` symlink resolves to, how many entries of the
wandb dir match `--checkpoint-name`, and whether the `files` directory and
the planned symlink already exist. -/
structure WandbDirInfo where
  dirName : String
  runFolders : List RunFolder
  latestRunId : String
  checkpointCount : Nat
  symlinkParentExists : Bool
  symlinkExists : Bool
deriving DecidableEq

/-- The missing-symlink scan of wandb_sync.py `upload_runs` (lines 457-463):
every entry of every run folder's `files` directory that is a symlink whose
target does not exist. -/
def missingSymlinks (dirs : List WandbDirInfo) : List String :=
  ((dirs.map WandbDirInfo.runFolders).flatten).flatMap (fun rf =>
    (rf.files.filter (fun f => f.isSymlink && !f.targetExists)).map
      (fun f => rf.name ++ "/files/" ++ f.name))

/-- The `wandb sync` command built for one run folder in wandb_sync.py
`upload_runs` (lines 520-536); `--include-globs` is appended when syncing
checkpoints only (`ckName.getD "None"` stands for Python's `None` there,
which the scripts only reach with a checkpoint name set). -/
def syncCommand (project : String) (entity : String) (checkpointsOnly : Bool)
    (ckName : Option String) (runFolder : RunFolder) : List String :=
  ["wandb", "sync", "--project", project, "--entity", entity]
    ++ (if checkpointsOnly then ["--include-globs", ckName.getD "None"] else [])
    ++ [runFolder.name]

/-- The commands contributed by one wandb dir: one `wandb sync` call per kept
run folder (wandb_sync.py lines 520-536). -/
def dirCommands (project : String) (entity : String) (checkpointsOnly : Bool)
    (ckName : Option String) (d : WandbDirInfo) : List (List String) :=
  d.runFolders.map (syncCommand project entity checkpointsOnly ckName)

/-- The body of the per-dir loop of wandb_sync.py `upload_runs` (lines
476-536) for one wandb dir: with a checkpoint name, resolve `latest-run`
(raising when its run id matches no selected run), locate the checkpoint and
the files directory (each failure prints and `continue`s, dropping this dir's
commands), and create the upload symlink unless `--dry-run` is set or it
already exists; then emit this dir's `wandb sync` commands. -/
def processDir (dryRun : Bool) (checkpointsOnly : Bool) (ckName : Option String)
    (runIds : List String) (project : String) (entity : String) (d : WandbDirInfo) :
    Except String (List Eff × List (List String)) :=
  match ckName with
  | none => .ok ([], dirCommands project entity checkpointsOnly ckName d)
  | some ck =>
    if d.latestRunId ∉ runIds then
      .error ("Latest run has run id " ++ d.latestRunId ++ " which does not match any run names")
    else
      let effs := [Eff.print ("Creating symbolic link for checkpoing " ++ ck
        ++ " to upload file during sync")]
      if d.checkpointCount ≠ 1 then
        .ok (effs ++ [Eff.print ("Failed to find checkpoint " ++ ck ++ " in directory "
          ++ d.dirName ++ ". Skipping directory.")], [])
      else if ¬ d.symlinkParentExists then
        .ok (effs ++ [Eff.print ("Wandb files directory does not exist: " ++ d.dirName
          ++ "/files. Skipping directory.")], [])
      else
        let effs2 := effs ++ [Eff.print ("Creating symbolic link from " ++ ck ++ " to "
          ++ d.dirName ++ "/files/" ++ ck)]
        let effs3 :=
          if ¬ dryRun then
            if d.symlinkExists then
              effs2 ++ [Eff.print "Symlink already exists, skipping symlink creation."]
            else
              effs2 ++ [Eff.symlinkCreate ck (d.dirName ++ "/files/" ++ ck)]
          else
            effs2
        .ok (effs3, dirCommands project entity checkpointsOnly ckName d)

/-- The per-dir loop of wandb_sync.py `upload_runs` (lines 476-536) over all
wandb dirs, accumulating effects and the `commands` list. -/
def dirsLoop (dryRun : Bool) (checkpointsOnly : Bool) (ckName : Option String)
    (runIds : List String) (project : String) (entity : String) :
    List WandbDirInfo → Except String (List Eff × List (List String))
  | [] => .ok ([], [])
  | d :: rest =>
    match processDir dryRun checkpointsOnly ckName runIds project entity d with
    | .error e => .error e
    | .ok (effs, cmds) =>
      match dirsLoop dryRun checkpointsOnly ckName runIds project entity rest with
      | .error e => .error e
      | .ok (effsRest, cmdsRest) => .ok (effs ++ effsRest, cmds ++ cmdsRest)

/-- The effectful tail of wandb_sync.py `upload_runs` (lines 456-554), after
the read-only collection and duplicate checks: missing symlinks are removed
when `--remove-missing-symlinks` is set (a `RuntimeError` otherwise), and
note these `f.unlink()` calls are not guarded by `--dry-run`; then the
per-dir loop runs; finally the commands are either printed (`--dry-run`) or
each printed and executed through `subprocess.run`. -/
def upload_runs (dryRun : Bool) (removeMissing : Bool) (checkpointsOnly : Bool)
    (ckName : Option String) (runIds : List String) (project : String) (entity : String)
    (dirs : List WandbDirInfo) : Except String (List Eff) :=
  let missing := missingSymlinks dirs
  if 0 < missing.length ∧ ¬ removeMissing then
    .error "Found missing symlinks. Cannot sync runs with missing symlinks or errors will be raised."
  else
    let unlinkEffs := missing.map Eff.unlink
    match dirsLoop dryRun checkpointsOnly ckName runIds project entity dirs with
    | .error e => .error e
    | .ok (effs, commands) =>
      if dryRun then
        .ok (unlinkEffs ++ effs ++ [Eff.printCommands commands])
      else
        .ok (unlinkEffs ++ effs
          ++ commands.flatMap (fun c => [Eff.print ("Running: " ++ String.intercalate " " c),
              Eff.subprocessRun c]))

/-- A remote file of a run as seen by wandb_sync.py `download_runs`, with the
`Path(run_dir, wandb_file.name).exists()` fact of the local tree. -/
structure LocalFile where
  name : String
  existsLocally : Bool
deriving DecidableEq

/-- A run being downloaded by wandb_sync.py `download_runs`: its name and its
remote files. -/
structure DRun where
  name : String
  files : List LocalFile
deriving DecidableEq

/-- The `_download` helper of wandb_sync.py `download_runs` (lines 275-287):
always prints; an existing local file is re-downloaded only with
`--overwrite-existing`, otherwise skipped; the `wandb_file.download` call is
guarded by `--dry-run`. -/
def downloadFileEffs (dryRun : Bool) (overwriteExisting : Bool) (f : LocalFile) : List Eff :=
  [Eff.print ("Downloading " ++ f.name)] ++
    (if f.existsLocally then
      if overwriteExisting then
        (if ¬ dryRun then [Eff.download f.name] else [])
      else
        [Eff.print " File exists and not overwriting, skipping..."]
    else
      (if ¬ dryRun then [Eff.download f.name] else []))

/-- The per-run body of wandb_sync.py `download_runs` (lines 289-312).  The
`run_dir.mkdir(exist_ok=True, parents=True)` call (line 293) is not guarded by
`--dry-run`.  With `checkpoints_only`, the `run.file` fetch is modelled with
`find?`; the `except` branch (line 308-312) prints and re-raises, with no
further effect. -/
def downloadRunEffs (dryRun : Bool) (overwriteExisting : Bool) (checkpointsOnly : Bool)
    (ckName : String) (resultsDir : String) (run : DRun) : List Eff :=
  [Eff.print ("Creating local directory for run " ++ run.name),
   Eff.mkdir (resultsDir ++ "/" ++ run.name)] ++
    (if ¬ checkpointsOnly then
      run.files.flatMap (downloadFileEffs dryRun overwriteExisting)
    else
      [Eff.print ("Downloading " ++ ckName)] ++
        (if ¬ dryRun then
          (match run.files.find? (fun f => f.name = ckName) with
           | some f => downloadFileEffs dryRun overwriteExisting f
           | none => [Eff.print ("Failed to find checkpoint " ++ ckName)])
        else []))

/-- wandb_sync.py `download_runs` (lines 272-312): the effects of the loop
over the matched runs. -/
def download_runs (dryRun : Bool) (overwriteExisting : Bool) (checkpointsOnly : Bool)
    (ckName : String) (resultsDir : String) (runs : List DRun) : List Eff :=
  runs.flatMap (downloadRunEffs dryRun overwriteExisting checkpointsOnly ckName resultsDir)

/-- C4: for every ordered metric row sequence in which exactly two rows match
the target metric name and value, at steps 10 and 30, step resolution with
policy `max` returns 30, with policy `min` returns 10, and with no policy
raises an error rather than silently defaulting. -/
theorem C4_two_matches_reduction (metricName : String) (value : Int)
    (rows : List MetricRow) (hname : metricName ≠ "step")
    (hsteps : matchingSteps metricName value rows = [10, 30]) :
    resolveStep metricName value (some "max") rows = .ok 30
      ∧ resolveStep metricName value (some "min") rows = .ok 10
      ∧ resolveStep metricName value none rows
          = .error "Must specify --matching-steps-reduction-func (with value 'min' or 'max')" := by
  refine ⟨?_, ?_, ?_⟩ <;> simp [resolveStep, hname, hsteps]

/-- Witness for C4 at a concrete history with matches at steps 10 and 30. -/
theorem C4_witness :
    ("epoch" ≠ "step")
    ∧ matchingSteps "epoch" 5
        [⟨10, [("epoch", 5)]⟩, ⟨20, [("epoch", 6)]⟩, ⟨30, [("epoch", 5)]⟩] = [10, 30]
    ∧ (resolveStep "epoch" 5 (some "max")
          [⟨10, [("epoch", 5)]⟩, ⟨20, [("epoch", 6)]⟩, ⟨30, [("epoch", 5)]⟩] = .ok 30
        ∧ resolveStep "epoch" 5 (some "min")
          [⟨10, [("epoch", 5)]⟩, ⟨20, [("epoch", 6)]⟩, ⟨30, [("epoch", 5)]⟩] = .ok 10
        ∧ resolveStep "epoch" 5 none
          [⟨10, [("epoch", 5)]⟩, ⟨20, [("epoch", 6)]⟩, ⟨30, [("epoch", 5)]⟩]
          = .error "Must specify --matching-steps-reduction-func (with value 'min' or 'max')") :=
  ⟨by decide, by decide, C4_two_matches_reduction "epoch" 5 _ (by decide) (by decide)⟩

/-- C5: for every integer input value, step resolution with target metric
name `"step"` returns the input value unchanged, without scanning any metric
rows (the result does not depend on the rows at all). -/
theorem C5_step_metric_identity (value : Int) (reductionFunc : Option String)
    (rows rows2 : List MetricRow) :
    resolveStep "step" value reductionFunc rows = .ok value
      ∧ resolveStep "step" value reductionFunc rows
          = resolveStep "step" value reductionFunc rows2 := by
  constructor <;> simp [resolveStep]

/-- C6: for every ordered metric row sequence and every non-`"step"` target
metric, step resolution fails if and only if either zero rows match the
target value exactly, or more than one row matches and no reduction policy
is supplied; when exactly one row matches, that row's step is returned
regardless of policy.  The policy ranges over the values argparse admits
(`choices=("min", "max")`, default `None`). -/
theorem C6_failure_characterisation (metricName : String) (value : Int)
    (reductionFunc : Option String) (rows : List MetricRow) (hname : metricName ≠ "step")
    (hred : reductionFunc = none ∨ reductionFunc = some "min" ∨ reductionFunc = some "max") :
    ((∃ msg, resolveStep metricName value reductionFunc rows = .error msg)
       ↔ (matchingSteps metricName value rows = []
           ∨ (1 < (matchingSteps metricName value rows).length ∧ reductionFunc = none)))
    ∧ (∀ (rf : Option String) (s : Int), matchingSteps metricName value rows = [s] →
        resolveStep metricName value rf rows = .ok s) := by
  constructor
  · rcases hms : matchingSteps metricName value rows with _ | ⟨s, _ | ⟨t, rest⟩⟩
    · simp [resolveStep, hname, hms]
    · simp [resolveStep, hname, hms]
    · rcases hred with h | h | h <;> simp [resolveStep, hname, hms, h]
  · intro rf s hms
    simp [resolveStep, hname, hms]

/-- Witness for C6 at a concrete single-match history. -/
theorem C6_witness :
    ("epoch" ≠ "step")
    ∧ ((none : Option String) = none ∨ (none : Option String) = some "min"
        ∨ (none : Option String) = some "max")
    ∧ matchingSteps "epoch" 7 [⟨40, [("epoch", 7)]⟩] = [40]
    ∧ (((∃ msg, resolveStep "epoch" 7 none [⟨40, [("epoch", 7)]⟩] = .error msg)
         ↔ (matchingSteps "epoch" 7 [⟨40, [("epoch", 7)]⟩] = []
             ∨ (1 < (matchingSteps "epoch" 7 [⟨40, [("epoch", 7)]⟩]).length
                 ∧ (none : Option String) = none)))
       ∧ (∀ (rf : Option String) (s : Int),
            matchingSteps "epoch" 7 [⟨40, [("epoch", 7)]⟩] = [s] →
            resolveStep "epoch" 7 rf [⟨40, [("epoch", 7)]⟩] = .ok s)) :=
  ⟨by decide, Or.inl rfl, by decide,
   C6_failure_characterisation "epoch" 7 none _ (by decide) (Or.inl rfl)⟩

/-- C7: for every run collection, resolving by an id held by exactly one run
returns exactly that run; resolving by an id held by zero runs or by more
than one run raises an error reporting the match count. -/
theorem C7_run_id_resolution (runId : String) (runs : List SRun) :
    (∀ run : SRun, runs.filter (fun r => r.id = runId) = [run] →
        findRunById runId runs = .ok run)
    ∧ ((runs.filter (fun r => r.id = runId)).length ≠ 1 →
        findRunById runId runs
          = .error ("Found " ++ toString (runs.filter (fun r => r.id = runId)).length
              ++ " runs with run.id == " ++ runId ++ ", expected one.")) := by
  constructor
  · intro run h
    simp [findRunById, h]
  · intro h
    rcases hf : runs.filter (fun r => r.id = runId) with _ | ⟨r, _ | ⟨r2, rest⟩⟩
    · simp [findRunById, hf]
    · rw [hf] at h; simp at h
    · simp [findRunById, hf]

/-- Witness for C7: a unique id resolves to its run, a duplicated id errors
with the count in the message. -/
theorem C7_witness :
    ([⟨"i1", "r1"⟩, ⟨"i2", "r2"⟩] : List SRun).filter (fun r => r.id = "i1") = [⟨"i1", "r1"⟩]
    ∧ findRunById "i1" [⟨"i1", "r1"⟩, ⟨"i2", "r2"⟩] = .ok ⟨"i1", "r1"⟩
    ∧ (([⟨"i1", "r1"⟩, ⟨"i1", "r2"⟩] : List SRun).filter (fun r => r.id = "i1")).length ≠ 1
    ∧ findRunById "i1" [⟨"i1", "r1"⟩, ⟨"i1", "r2"⟩]
        = .error ("Found "
            ++ toString (([⟨"i1", "r1"⟩, ⟨"i1", "r2"⟩] : List SRun).filter
                (fun r => r.id = "i1")).length
            ++ " runs with run.id == " ++ "i1" ++ ", expected one.") :=
  ⟨by decide, (C7_run_id_resolution "i1" _).1 _ (by decide), by decide,
   (C7_run_id_resolution "i1" _).2 (by decide)⟩

/-- C9: for every fork invocation in which the forked run directory does not
exist, the program raises an attribute error on the undefined
`create_forked_run_dir` argument (the parser never defines a
`--create-forked-run-dir` flag), so the directory-creation branch is
unreachable and the directory is never created. -/
theorem C9_unreachable_mkdir_branch :
    ("create_forked_run_dir" ∉ parseArgsDests)
    ∧ (∀ createFlagValue : Bool,
        forkDirCheck false createFlagValue = .error "AttributeError: create_forked_run_dir")
    ∧ (∀ (dirExists createFlagValue : Bool),
        forkDirCheck dirExists createFlagValue ≠ .ok true) := by
  refine ⟨by decide, fun v => rfl, ?_⟩
  intro e v
  cases e <;> simp [forkDirCheck, nsGetattr, parseArgsDests]


/-- Shape of the deletion phase when some candidate exists, the run is not
dry and the response lower-cases to `y`: the enumeration is printed and every
candidate is deleted, files first. -/
theorem deleteObjectsConfirm_eq_of_y (response : String) (files arts : List WObj)
    (hy : strLower response = "y") (hnil : ¬ (files = [] ∧ arts = [])) :
    deleteObjectsConfirm false response files arts
      = Eff.printObjs (files ++ arts) :: Eff.print "Deleting files (response=y)"
          :: (files.map (fun f => Eff.deleteFile f.name)
              ++ arts.map (fun f => Eff.deleteArtifact f.name)) := by
  simp [deleteObjectsConfirm, hnil, hy]

/-- Shape of the deletion phase when some candidate exists, the run is not
dry and the response does not lower-case to `y`: the enumeration is printed
and deletion is skipped. -/
theorem deleteObjectsConfirm_eq_of_not_y (response : String) (files arts : List WObj)
    (hy : ¬ strLower response = "y") (hnil : ¬ (files = [] ∧ arts = [])) :
    deleteObjectsConfirm false response files arts
      = [Eff.printObjs (files ++ arts), Eff.print "Skipping deletion (response=n)"] := by
  simp [deleteObjectsConfirm, hnil, hy]

/-- Shape of the deletion phase on a dry run with some candidate: only the
enumeration is printed. -/
theorem deleteObjectsConfirm_eq_of_dry (response : String) (files arts : List WObj)
    (hnil : ¬ (files = [] ∧ arts = [])) :
    deleteObjectsConfirm true response files arts = [Eff.printObjs (files ++ arts)] := by
  simp [deleteObjectsConfirm, hnil]

/-- Counterexample to C1 as stated: the claim requires every destructive
tool to proceed on a response equal to `yes` case-insensitively, but the
deletion gate of wandb_update.py `delete_objects` (line 316) compares
`response.lower() == "y"`, so the response `yes` aborts: no delete effect is
emitted, only the skip message. -/
theorem C1_counterexample_yes_aborts_deletion :
    strLower "yes" = "yes"
    ∧ deleteObjectsConfirm false "yes" [⟨"ckpt.pth", 0⟩] []
        = [Eff.printObjs [⟨"ckpt.pth", 0⟩], Eff.print "Skipping deletion (response=n)"] :=
  ⟨by decide, by decide⟩

/-- C1 amended: every destructive operation first prints the full list of
objects intended for mutation; the fork tool proceeds exactly on a response
whose lower-case form is `y` or `yes`, while the deletion tool proceeds
exactly on lower-case `y` (so `yes` also aborts it); every other response
aborts with no deletion and no remote call, and a dry run never deletes. -/
theorem C1_amended_confirmation_gates (response : String) (dryRun : Bool)
    (files arts : List WObj) :
    (Eff.wandbInit ∈ forkConfirmPhase response
       ↔ (strLower response = "y" ∨ strLower response = "yes"))
    ∧ (¬ (files = [] ∧ arts = []) →
        Eff.printObjs (files ++ arts) ∈ deleteObjectsConfirm dryRun response files arts)
    ∧ (∀ x : String,
        (Eff.deleteFile x ∈ deleteObjectsConfirm false response files arts
          ∨ Eff.deleteArtifact x ∈ deleteObjectsConfirm false response files arts) →
        strLower response = "y")
    ∧ (strLower response = "y" →
        (∀ f ∈ files, Eff.deleteFile f.name ∈ deleteObjectsConfirm false response files arts)
        ∧ (∀ f ∈ arts, Eff.deleteArtifact f.name ∈ deleteObjectsConfirm false response files arts))
    ∧ (∀ x : String,
        Eff.deleteFile x ∉ deleteObjectsConfirm true response files arts
        ∧ Eff.deleteArtifact x ∉ deleteObjectsConfirm true response files arts) := by
  refine ⟨?_, ?_, ?_, ?_, ?_⟩
  · by_cases h : strLower response ∈ (["y", "yes"] : List String) <;>
      simp [forkConfirmPhase, h] <;> simpa using h
  · intro hnil
    cases dryRun
    · by_cases hy : strLower response = "y"
      · rw [deleteObjectsConfirm_eq_of_y response files arts hy hnil]
        exact List.mem_cons_self _ _
      · rw [deleteObjectsConfirm_eq_of_not_y response files arts hy hnil]
        exact List.mem_cons_self _ _
    · rw [deleteObjectsConfirm_eq_of_dry response files arts hnil]
      exact List.mem_cons_self _ _
  · intro x hx
    by_cases hnil : files = [] ∧ arts = []
    · simp [deleteObjectsConfirm, hnil.1, hnil.2] at hx
    · by_cases hy : strLower response = "y"
      · exact hy
      · rw [deleteObjectsConfirm_eq_of_not_y response files arts hy hnil] at hx
        simp at hx
  · intro hy
    have mems : ∀ x : Eff,
        x ∈ files.map (fun f => Eff.deleteFile f.name)
            ++ arts.map (fun f => Eff.deleteArtifact f.name) →
        x ∈ deleteObjectsConfirm false response files arts := by
      intro x hx
      have hnil : ¬ (files = [] ∧ arts = []) := by
        rintro ⟨rfl, rfl⟩
        simp at hx
      rw [deleteObjectsConfirm_eq_of_y response files arts hy hnil]
      exact List.mem_cons_of_mem _ (List.mem_cons_of_mem _ hx)
    refine ⟨fun f hf => mems _ ?_, fun f hf => mems _ ?_⟩
    · exact List.mem_append_left _ (List.mem_map_of_mem _ hf)
    · exact List.mem_append_right _ (List.mem_map_of_mem _ hf)
  · intro x
    by_cases hnil : files = [] ∧ arts = []
    · constructor <;> simp [deleteObjectsConfirm, hnil.1, hnil.2]
    · rw [deleteObjectsConfirm_eq_of_dry response files arts hnil]
      constructor <;> simp

/-- Witness for the amended C1 at a concrete candidate list and the response
`Y`: the deletion effect for the single candidate is emitted. -/
theorem C1_witness :
    strLower "Y" = "y"
    ∧ (∀ f ∈ ([⟨"ckpt.pth", 0⟩] : List WObj),
        Eff.deleteFile f.name ∈ deleteObjectsConfirm false "Y" [⟨"ckpt.pth", 0⟩] []) :=
  ⟨by decide,
   ((C1_amended_confirmation_gates "Y" false [⟨"ckpt.pth", 0⟩] []).2.2.2.1 (by decide)).1⟩

/-- Dropping an element that `f` sends to `none` makes `filterMap` strictly
shorter than the input. -/
theorem length_filterMap_lt_of_none {α β : Type} (f : α → Option β) (l : List α) (x : α)
    (hx : x ∈ l) (hfx : f x = none) : (l.filterMap f).length < l.length := by
  induction l with
  | nil => simp at hx
  | cons y ys ih =>
    rcases List.mem_cons.1 hx with rfl | hmem
    · rw [List.filterMap_cons, hfx]
      have := List.length_filterMap_le f ys
      simp only [List.length_cons]
      omega
    · rw [List.filterMap_cons]
      cases hfy : f y with
      | none =>
        have := ih hmem
        simp only [List.length_cons]
        omega
      | some b =>
        have := ih hmem
        simp only [List.length_cons, List.length_cons]
        omega

/-- A `filterMap` of full length succeeds on every element. -/
theorem filterMap_full {α β : Type} (f : α → Option β) (l : List α)
    (h : (l.filterMap f).length = l.length) : ∀ x ∈ l, ∃ y, f x = some y := by
  intro x hx
  cases hfx : f x with
  | none => exact absurd h (Nat.ne_of_lt (length_filterMap_lt_of_none f l x hx hfx))
  | some y => exact ⟨y, rfl⟩

/-- The keyword loop of `get_matching_runs` is the `filterMap` that keeps the
unique match of each keyword and drops keywords without a unique match. -/
theorem collectKeepRuns_eq_filterMap (search : String → String → Bool) (runs : List SRun)
    (keywords : List String) :
    collectKeepRuns search runs keywords
      = keywords.filterMap (fun kw =>
          match matchingRunsFor search runs kw with
          | [run] => some run
          | _ => none) := by
  induction keywords with
  | nil => rfl
  | cons kw rest ih =>
    rcases h : matchingRunsFor search runs kw with _ | ⟨r, _ | ⟨r2, rs⟩⟩ <;>
      simp [collectKeepRuns, List.filterMap_cons, h, ih]

/-- A duplicated element keeps `dedup` strictly shorter than the list. -/
theorem dedup_length_lt_of_not_nodup {α : Type} [DecidableEq α] (l : List α)
    (h : ¬ l.Nodup) : l.dedup.length < l.length := by
  rcases Nat.lt_or_ge l.dedup.length l.length with hlt | hge
  · exact hlt
  · exfalso
    have hle := (List.dedup_sublist l).length_le
    have heq := (List.dedup_sublist l).eq_of_length (Nat.le_antisymm hle hge)
    exact h (heq ▸ l.nodup_dedup)

/-- C3: for every keyword list given to the run resolver, resolution yields
exactly one run per keyword, and it fails whenever some keyword matches zero
runs or more than one run, and fails as well when the resulting run set is
not keyword-unique (the same run matched by two keywords).  The failures all
surface through the final `len(set(keep_run_names)) != len(args.run_names)`
check of `get_matching_runs`. -/
theorem C3_keyword_resolution (search : String → String → Bool) (runs : List SRun)
    (keywords : List String) :
    ((∃ kw ∈ keywords, (matchingRunsFor search runs kw).length ≠ 1) →
       ∃ msg, get_matching_runs search (some keywords) runs = .error msg)
    ∧ (∀ (kw1 kw2 : String) (run : SRun), kw1 ∈ keywords → kw2 ∈ keywords → kw1 ≠ kw2 →
        matchingRunsFor search runs kw1 = [run] → matchingRunsFor search runs kw2 = [run] →
        ∃ msg, get_matching_runs search (some keywords) runs = .error msg)
    ∧ (∀ keepRuns : List SRun, get_matching_runs search (some keywords) runs = .ok keepRuns →
        keepRuns.length = keywords.length
        ∧ (∀ kw ∈ keywords, ∃ run ∈ keepRuns, matchingRunsFor search runs kw = [run])) := by
  have hK := collectKeepRuns_eq_filterMap search runs keywords
  refine ⟨?_, ?_, ?_⟩
  · rintro ⟨kw, hkw, hne⟩
    have hpick : (match matchingRunsFor search runs kw with
        | [run] => some run
        | _ => none) = (none : Option SRun) := by
      rcases hm : matchingRunsFor search runs kw with _ | ⟨r, _ | ⟨r2, rs⟩⟩
      · rfl
      · rw [hm] at hne; simp at hne
      · rfl
    have hlt : (collectKeepRuns search runs keywords).length < keywords.length := by
      rw [hK]
      exact length_filterMap_lt_of_none _ keywords kw hkw hpick
    have hdle :=
      (List.dedup_sublist ((collectKeepRuns search runs keywords).map SRun.name)).length_le
    rw [List.length_map] at hdle
    have hcond :
        ((collectKeepRuns search runs keywords).map SRun.name).dedup.length
          ≠ keywords.length := by omega
    exact ⟨"One or more run names / keywords matched the same run, returning fewer runs than requested", by simp [get_matching_runs, hcond]⟩
  · intro kw1 kw2 run hk1 hk2 hne12 hm1 hm2
    have hp1 : (match matchingRunsFor search runs kw1 with
        | [run] => some run
        | _ => none) = some run := by rw [hm1]
    have hp2 : (match matchingRunsFor search runs kw2 with
        | [run] => some run
        | _ => none) = some run := by rw [hm2]
    obtain ⟨s, t, hst⟩ := List.append_of_mem hk1
    have hk2' : kw2 ∈ s ∨ kw2 ∈ t := by
      rw [hst] at hk2
      rcases List.mem_append.1 hk2 with h | h
      · exact Or.inl h
      · rcases List.mem_cons.1 h with rfl | h
        · exact absurd rfl hne12
        · exact Or.inr h
    have hnodup : ¬ ((collectKeepRuns search runs keywords).map SRun.name).Nodup := by
      rw [hK, hst, List.filterMap_append, List.filterMap_cons, hp1, List.map_append,
        List.map_cons]
      rcases hk2' with h | h
      · intro hnd
        rcases List.nodup_append.1 hnd with ⟨_, _, hdisj⟩
        refine hdisj (List.mem_map_of_mem _ (List.mem_filterMap.2 ⟨kw2, h, hp2⟩)) ?_
        exact List.mem_cons_self _ _
      · intro hnd
        rcases List.nodup_append.1 hnd with ⟨_, hcons, _⟩
        exact (List.nodup_cons.1 hcons).1
          (List.mem_map_of_mem _ (List.mem_filterMap.2 ⟨kw2, h, hp2⟩))
    have hlen : (collectKeepRuns search runs keywords).length ≤ keywords.length := by
      rw [hK]; exact List.length_filterMap_le _ _
    have hlt := dedup_length_lt_of_not_nodup _ hnodup
    rw [List.length_map] at hlt
    have hcond :
        ((collectKeepRuns search runs keywords).map SRun.name).dedup.length
          ≠ keywords.length := by omega
    exact ⟨"One or more run names / keywords matched the same run, returning fewer runs than requested", by simp [get_matching_runs, hcond]⟩
  · intro keepRuns hok
    by_cases hcond :
        ((collectKeepRuns search runs keywords).map SRun.name).dedup.length
          ≠ keywords.length
    · simp [get_matching_runs, hcond] at hok
    · push_neg at hcond
      have hkeep : collectKeepRuns search runs keywords = keepRuns := by
        have := hok
        simp [get_matching_runs, hcond] at this
        exact this
      have hdle :=
        (List.dedup_sublist ((collectKeepRuns search runs keywords).map SRun.name)).length_le
      rw [List.length_map] at hdle
      have hlen : (collectKeepRuns search runs keywords).length ≤ keywords.length := by
        rw [hK]; exact List.length_filterMap_le _ _
      have hfull : (collectKeepRuns search runs keywords).length = keywords.length := by
        omega
      constructor
      · rw [← hkeep]; exact hfull
      · intro kw hkw
        rw [hK] at hfull
        obtain ⟨y, hy⟩ := filterMap_full _ keywords hfull kw hkw
        refine ⟨y, ?_, ?_⟩
        · rw [← hkeep, hK]
          exact List.mem_filterMap.2 ⟨kw, hkw, hy⟩
        · rcases hm : matchingRunsFor search runs kw with _ | ⟨r, _ | ⟨r2, rs⟩⟩ <;>
            rw [hm] at hy
          · simp at hy
          · have hry : r = y := by simpa using hy
            rw [hry]
          · simp at hy

/-- Witness for C3: a two-keyword resolution that succeeds, yielding one run
per keyword. -/
theorem C3_witness :
    get_matching_runs (fun kw nm => kw == nm) (some ["r1", "r2"])
        [⟨"i1", "r1"⟩, ⟨"i2", "r2"⟩] = .ok [⟨"i1", "r1"⟩, ⟨"i2", "r2"⟩]
    ∧ ([⟨"i1", "r1"⟩, ⟨"i2", "r2"⟩] : List SRun).length = (["r1", "r2"] : List String).length
    ∧ (∀ kw ∈ (["r1", "r2"] : List String), ∃ run ∈ ([⟨"i1", "r1"⟩, ⟨"i2", "r2"⟩] : List SRun),
        matchingRunsFor (fun kw nm => kw == nm) [⟨"i1", "r1"⟩, ⟨"i2", "r2"⟩] kw = [run]) :=
  ⟨rfl,
   ((C3_keyword_resolution (fun kw nm => kw == nm) [⟨"i1", "r1"⟩, ⟨"i2", "r2"⟩]
      ["r1", "r2"]).2.2 _ rfl).1,
   ((C3_keyword_resolution (fun kw nm => kw == nm) [⟨"i1", "r1"⟩, ⟨"i2", "r2"⟩]
      ["r1", "r2"]).2.2 _ rfl).2⟩

/-- Inserting into the stable descending sort permutes consing. -/
theorem insertDesc_perm (x : WObj) (l : List WObj) : (insertDesc x l).Perm (x :: l) := by
  induction l with
  | nil => rfl
  | cons y ys ih =>
    simp only [insertDesc]
    split
    · exact (ih.cons y).trans (List.Perm.swap x y ys)
    · rfl

/-- The stable descending sort is a permutation of its input. -/
theorem sortDesc_perm (l : List WObj) : (sortDesc l).Perm l := by
  induction l with
  | nil => rfl
  | cons x xs ih =>
    exact (insertDesc_perm x (sortDesc xs)).trans (ih.cons x)

/-- Inserting into a list sorted by decreasing timestamp keeps it sorted. -/
theorem insertDesc_pairwise (x : WObj) (l : List WObj)
    (h : l.Pairwise (fun a b => b.updatedAt ≤ a.updatedAt)) :
    (insertDesc x l).Pairwise (fun a b => b.updatedAt ≤ a.updatedAt) := by
  induction l with
  | nil => simp [insertDesc]
  | cons y ys ih =>
    rcases List.pairwise_cons.1 h with ⟨hy, hys⟩
    simp only [insertDesc]
    split
    · refine List.pairwise_cons.2 ⟨?_, ih hys⟩
      intro a ha
      rcases List.mem_cons.1 ((insertDesc_perm x ys).mem_iff.1 ha) with rfl | ha'
      · omega
      · exact hy a ha'
    · refine List.pairwise_cons.2 ⟨?_, h⟩
      intro a ha
      rcases List.mem_cons.1 ha with rfl | ha'
      · omega
      · have := hy a ha'
        omega

/-- The stable descending sort is sorted by decreasing timestamp. -/
theorem sortDesc_pairwise (l : List WObj) :
    (sortDesc l).Pairwise (fun a b => b.updatedAt ≤ a.updatedAt) := by
  induction l with
  | nil => simp [sortDesc]
  | cons x xs ih =>
    exact insertDesc_pairwise x (sortDesc xs) ih

/-- On a non-empty candidate list, `last_mod_file` is an element whose
timestamp dominates all candidates. -/
theorem lastModFile_spec (l : List WObj) (hne : l ≠ []) :
    ∃ m, lastModFile l = some m ∧ m ∈ l ∧ ∀ x ∈ l, x.updatedAt ≤ m.updatedAt := by
  by_cases h1 : l.length = 1
  · obtain ⟨a, rfl⟩ := List.length_eq_one.1 h1
    exact ⟨a, by simp [lastModFile], by simp, by simp⟩
  · have hsne : sortDesc l ≠ [] := by
      intro h
      exact hne (List.eq_nil_of_length_eq_zero (by
        have := (sortDesc_perm l).length_eq
        rw [h] at this
        simpa using this.symm))
    obtain ⟨m, t, hmt⟩ := List.exists_cons_of_ne_nil hsne
    refine ⟨m, ?_, ?_, ?_⟩
    · simp [lastModFile, h1, hmt]
    · exact (sortDesc_perm l).mem_iff.1 (hmt ▸ List.mem_cons_self m t)
    · intro x hx
      rcases List.mem_cons.1 (hmt ▸ (sortDesc_perm l).mem_iff.2 hx) with rfl | hxt
      · omega
      · have hpw := sortDesc_pairwise l
        rw [hmt] at hpw
        exact (List.pairwise_cons.1 hpw).1 x hxt

/-- With pairwise-distinct timestamps an element occurs once, so filtering it
out removes exactly one entry. -/
theorem filter_ne_length (l : List WObj) (m : WObj)
    (hpw : l.Pairwise (fun a b => a.updatedAt ≠ b.updatedAt)) (hm : m ∈ l) :
    (l.filter (fun f => f ≠ m)).length + 1 = l.length := by
  induction l with
  | nil => simp at hm
  | cons x xs ih =>
    rcases List.pairwise_cons.1 hpw with ⟨hx, hxs⟩
    rcases List.mem_cons.1 hm with rfl | hmem
    · have hxs_eq : xs.filter (fun f => f ≠ m) = xs := by
        refine List.filter_eq_self.2 (fun a ha => ?_)
        have ham : a ≠ m := by
          intro h
          exact hx a ha (by rw [h])
        simpa using ham
      rw [List.filter_cons]
      have hcond : ¬ ((fun f => decide (f ≠ m)) m = true) := by simp
      rw [if_neg hcond, hxs_eq, List.length_cons]
    · have hxm : x ≠ m := by
        intro h
        exact hx m hmem (by rw [h])
      have hih := ih hxs hmem
      rw [List.filter_cons]
      have hcond : ((fun f => decide (f ≠ m)) x = true) := by simp [hxm]
      rw [if_pos hcond, List.length_cons, List.length_cons]
      omega

/-- Full behaviour of `remove_latest_file_or_artifact` on a non-empty list
with pairwise-distinct update timestamps: the unique most recently updated
candidate is removed and everything else is returned, in order. -/
theorem remove_latest_spec (l : List WObj) (hne : l ≠ [])
    (hpw : l.Pairwise (fun a b => a.updatedAt ≠ b.updatedAt)) :
    ∃ m, m ∈ l ∧ (∀ x ∈ l, x ≠ m → x.updatedAt < m.updatedAt)
      ∧ remove_latest_file_or_artifact l = some (l.filter (fun f => f ≠ m))
      ∧ (l.filter (fun f => f ≠ m)).length = l.length - 1 := by
  obtain ⟨m, hml, hmem, hmax⟩ := lastModFile_spec l hne
  have hstrict : ∀ x ∈ l, x ≠ m → x.updatedAt < m.updatedAt := by
    intro x hx hxm
    have hneq : x.updatedAt ≠ m.updatedAt := by
      refine List.Pairwise.forall (fun hab => ?_) hpw hx hmem hxm
      omega
    have := hmax x hx
    omega
  have hflen := filter_ne_length l m hpw hmem
  refine ⟨m, hmem, hstrict, ?_, by omega⟩
  rw [remove_latest_file_or_artifact, hml]
  simp only []
  rw [if_pos (by omega)]

/-- C8: for every 3-item deletion candidate set with distinct update
timestamps, keep-latest removal returns a 2-item set equal to the input
minus exactly the item with the greatest update timestamp, and the returned
set is the same (as a set) for every reordering of the input. -/
theorem C8_keep_latest_three_items (a b c : WObj) (l : List WObj)
    (hab : a.updatedAt ≠ b.updatedAt) (hac : a.updatedAt ≠ c.updatedAt)
    (hbc : b.updatedAt ≠ c.updatedAt) (hl : l.Perm [a, b, c]) :
    ∃ m r, remove_latest_file_or_artifact l = some r
      ∧ m ∈ ([a, b, c] : List WObj)
      ∧ (∀ x ∈ ([a, b, c] : List WObj), x ≠ m → x.updatedAt < m.updatedAt)
      ∧ r.length = 2
      ∧ r.Perm (([a, b, c] : List WObj).filter (fun x => x ≠ m)) := by
  have hpw3 : ([a, b, c] : List WObj).Pairwise (fun x y => x.updatedAt ≠ y.updatedAt) := by
    simp [List.pairwise_cons, hab, hac, hbc]
  have hpw : l.Pairwise (fun x y => x.updatedAt ≠ y.updatedAt) :=
    (List.Perm.pairwise_iff (fun h₁ => h₁.symm) hl).2 hpw3
  have hlen3 : l.length = 3 := by rw [hl.length_eq]; rfl
  have hne : l ≠ [] := by
    intro h
    rw [h] at hlen3
    simp at hlen3
  obtain ⟨m, hmem, hmax, heq, hflen⟩ := remove_latest_spec l hne hpw
  refine ⟨m, l.filter (fun f => f ≠ m), heq, hl.mem_iff.1 hmem, ?_, ?_, hl.filter _⟩
  · intro x hx hxm
    exact hmax x (hl.mem_iff.2 hx) hxm
  · omega

/-- Witness for C8 at a concrete reordered 3-item list. -/
theorem C8_witness :
    ((⟨"a", 1⟩ : WObj).updatedAt ≠ (⟨"b", 2⟩ : WObj).updatedAt)
    ∧ ((⟨"a", 1⟩ : WObj).updatedAt ≠ (⟨"c", 3⟩ : WObj).updatedAt)
    ∧ ((⟨"b", 2⟩ : WObj).updatedAt ≠ (⟨"c", 3⟩ : WObj).updatedAt)
    ∧ ([⟨"b", 2⟩, ⟨"c", 3⟩, ⟨"a", 1⟩] : List WObj).Perm [⟨"a", 1⟩, ⟨"b", 2⟩, ⟨"c", 3⟩]
    ∧ (∃ m r, remove_latest_file_or_artifact [⟨"b", 2⟩, ⟨"c", 3⟩, ⟨"a", 1⟩] = some r
        ∧ m ∈ ([⟨"a", 1⟩, ⟨"b", 2⟩, ⟨"c", 3⟩] : List WObj)
        ∧ (∀ x ∈ ([⟨"a", 1⟩, ⟨"b", 2⟩, ⟨"c", 3⟩] : List WObj),
            x ≠ m → x.updatedAt < m.updatedAt)
        ∧ r.length = 2
        ∧ r.Perm (([⟨"a", 1⟩, ⟨"b", 2⟩, ⟨"c", 3⟩] : List WObj).filter (fun x => x ≠ m))) :=
  ⟨by decide, by decide, by decide, by decide,
   C8_keep_latest_three_items ⟨"a", 1⟩ ⟨"b", 2⟩ ⟨"c", 3⟩ _
     (by decide) (by decide) (by decide) (by decide)⟩

/-- Counterexample to C10 as stated: with two overlapping delete patterns on
one run (files f1, f2, f3 at timestamps 1 < 2 < 3; pattern A matching f1 and
f2, pattern B matching f2 and f3), the object f2 is the most recently
updated match of the pair (run, A), yet the final deletion set is
[f1, f2] — f2 is not excluded from the final set, it re-enters through
pattern B. -/
theorem C10_counterexample_overlapping_patterns :
    runsLoop (fun rx nm => (rx == "A" && (nm == "f1" || nm == "f2"))
        || (rx == "B" && (nm == "f2" || nm == "f3")))
      true ["A", "B"] [[⟨"f1", 1⟩, ⟨"f2", 2⟩, ⟨"f3", 3⟩]]
      = some [⟨"f1", 1⟩, ⟨"f2", 2⟩]
    ∧ ([⟨"f1", 1⟩, ⟨"f2", 2⟩, ⟨"f3", 3⟩] : List WObj).filter
        (fun f => (fun rx nm => (rx == "A" && (nm == "f1" || nm == "f2"))
          || (rx == "B" && (nm == "f2" || nm == "f3"))) "A" f.name)
        = [⟨"f1", 1⟩, ⟨"f2", 2⟩]
    ∧ find_objects (fun rx nm => (rx == "A" && (nm == "f1" || nm == "f2"))
        || (rx == "B" && (nm == "f2" || nm == "f3")))
        [⟨"f1", 1⟩, ⟨"f2", 2⟩, ⟨"f3", 3⟩] "A" true = some [⟨"f1", 1⟩]
    ∧ (⟨"f2", 2⟩ : WObj) ∈ ([⟨"f1", 1⟩, ⟨"f2", 2⟩] : List WObj)
    ∧ (⟨"f1", 1⟩ : WObj).updatedAt < (⟨"f2", 2⟩ : WObj).updatedAt := by
  refine ⟨by decide, by decide, by decide, by decide, by decide⟩

/-- The inner regex loop concatenates one `find_objects` contribution per
delete pattern when every contribution is defined. -/
theorem regexLoop_eq_flatten (search : String → String → Bool) (files : List WObj)
    (regexes : List String)
    (h : ∀ rx ∈ regexes, (find_objects search files rx true).isSome) :
    regexLoop search true files regexes
      = some ((regexes.map (fun rx => (find_objects search files rx true).getD [])).flatten) := by
  induction regexes with
  | nil => rfl
  | cons rx rest ih =>
    have hrx := h rx (List.mem_cons_self rx rest)
    obtain ⟨d, hd⟩ := Option.isSome_iff_exists.1 hrx
    have hrest := ih (fun r hr => h r (List.mem_cons_of_mem rx hr))
    simp [regexLoop, hd, hrest]

/-- C10 amended: latest-object removal is applied independently for each run
and each delete pattern, the final deletion set being the concatenation of
the per-(run, pattern) contributions; for a pair with at least one matching
object and pairwise-distinct update timestamps, exactly its most recently
updated match is excluded from that pair's contribution (an object so
excluded may still enter the final deletion set through another pattern
that matches it); a pair with a single matching object contributes
nothing. -/
theorem C10_amended_per_pair_keep_latest (search : String → String → Bool)
    (runsFiles : List (List WObj)) (regexes : List String) (files : List WObj)
    (regex : String) :
    ((∀ fs ∈ runsFiles, ∀ rx ∈ regexes, (find_objects search fs rx true).isSome) →
      runsLoop search true regexes runsFiles
        = some ((runsFiles.map (fun fs =>
            (regexes.map (fun rx => (find_objects search fs rx true).getD [])).flatten)).flatten))
    ∧ (∀ x : WObj, files.filter (fun f => search regex f.name) = [x] →
        find_objects search files regex true = some [])
    ∧ ((files.filter (fun f => search regex f.name)).Pairwise
          (fun x y => x.updatedAt ≠ y.updatedAt) →
       0 < (files.filter (fun f => search regex f.name)).length →
       ∃ m, m ∈ files.filter (fun f => search regex f.name)
         ∧ (∀ x ∈ files.filter (fun f => search regex f.name),
             x ≠ m → x.updatedAt < m.updatedAt)
         ∧ find_objects search files regex true
             = some ((files.filter (fun f => search regex f.name)).filter (fun f => f ≠ m))
         ∧ ((files.filter (fun f => search regex f.name)).filter (fun f => f ≠ m)).length
             = (files.filter (fun f => search regex f.name)).length - 1) := by
  refine ⟨?_, ?_, ?_⟩
  · intro h
    induction runsFiles with
    | nil => rfl
    | cons fs rest ih =>
      have hfs := regexLoop_eq_flatten search fs regexes
        (fun rx hrx => h fs (List.mem_cons_self fs rest) rx hrx)
      have hrest := ih (fun fs2 hfs2 rx hrx => h fs2 (List.mem_cons_of_mem fs hfs2) rx hrx)
      simp [runsLoop, hfs, hrest]
  · intro x hx
    have hrl : remove_latest_file_or_artifact [x] = some [] := by
      simp [remove_latest_file_or_artifact, lastModFile]
    simp [find_objects, hx, hrl]
  · intro hpw hpos
    have hne : files.filter (fun f => search regex f.name) ≠ [] := by
      intro h
      rw [h] at hpos
      simp at hpos
    obtain ⟨m, hmem, hmax, heq, hflen⟩ :=
      remove_latest_spec (files.filter (fun f => search regex f.name)) hne hpw
    refine ⟨m, hmem, hmax, ?_, hflen⟩
    simp [find_objects, hpos, heq]

/-- Witness for the amended C10: the join structure at a concrete run/pattern
table, and the empty contribution of a single-match pair. -/
theorem C10_witness :
    runsLoop (fun _ _ => (true : Bool)) true ["p"] [[⟨"a", 1⟩, ⟨"b", 2⟩]]
      = some ((([[⟨"a", 1⟩, ⟨"b", 2⟩]] : List (List WObj)).map (fun fs =>
          ((["p"] : List String).map
            (fun rx => (find_objects (fun _ _ => (true : Bool)) fs rx true).getD [])).flatten)).flatten)
    ∧ find_objects (fun _ nm => nm == "single") [⟨"single", 5⟩] "q" true = some [] :=
  ⟨(C10_amended_per_pair_keep_latest (fun _ _ => (true : Bool)) [[⟨"a", 1⟩, ⟨"b", 2⟩]] ["p"]
      [] "p").1 (by decide),
   (C10_amended_per_pair_keep_latest (fun _ nm => nm == "single") [] []
      [⟨"single", 5⟩] "q").2.1 ⟨"single", 5⟩ (by decide)⟩

/-- Counterexample to C2 as stated: with `--dry-run` set, the upload path
still unlinks a dangling symlink when `--remove-missing-symlinks` is given
(wandb_sync.py lines 465-473 are not guarded by the dry-run flag), and the
download path still creates the local run directory (line 293). -/
theorem C2_counterexample_dry_run_mutates :
    upload_runs true true false none ["abc"] "proj" "ent"
      [⟨"d", [⟨"run-abc", [⟨"ck.pth", true, false⟩]⟩], "abc", 0, false, false⟩]
      = .ok [Eff.unlink "run-abc/files/ck.pth",
             Eff.printCommands [["wandb", "sync", "--project", "proj", "--entity", "ent",
               "run-abc"]]]
    ∧ Eff.mkdir "results/r1" ∈ download_runs true false false "ck" "results" [⟨"r1", []⟩] :=
  ⟨rfl, by decide⟩

/-- On a dry run, the per-dir loop body only prints. -/
theorem processDir_dry_effects (checkpointsOnly : Bool) (ckName : Option String)
    (runIds : List String) (project : String) (entity : String) (d : WandbDirInfo)
    (effs : List Eff) (cmds : List (List String))
    (h : processDir true checkpointsOnly ckName runIds project entity d = .ok (effs, cmds)) :
    ∀ e ∈ effs, ∃ msg, e = Eff.print msg := by
  intro e he
  cases ckName with
  | none =>
    simp only [processDir, Except.ok.injEq, Prod.mk.injEq] at h
    rw [← h.1] at he
    simp at he
  | some ck =>
    simp only [processDir] at h
    split at h
    · simp at h
    · split at h
      · simp only [Except.ok.injEq, Prod.mk.injEq] at h
        rw [← h.1] at he
        simp only [List.mem_append, List.mem_singleton, List.mem_cons,
          List.not_mem_nil, or_false] at he
        rcases he with he | he <;> exact ⟨_, he⟩
      · split at h
        · simp only [Except.ok.injEq, Prod.mk.injEq] at h
          rw [← h.1] at he
          simp only [List.mem_append, List.mem_singleton, List.mem_cons,
            List.not_mem_nil, or_false] at he
          rcases he with he | he <;> exact ⟨_, he⟩
        · simp only [not_true_eq_false, if_false, Except.ok.injEq, Prod.mk.injEq] at h
          rw [← h.1] at he
          simp only [List.mem_append, List.mem_singleton, List.mem_cons,
            List.not_mem_nil, or_false] at he
          rcases he with he | he <;> exact ⟨_, he⟩

/-- On a dry run, the whole per-dir loop only prints. -/
theorem dirsLoop_dry_effects (checkpointsOnly : Bool) (ckName : Option String)
    (runIds : List String) (project : String) (entity : String) (dirs : List WandbDirInfo)
    (effs : List Eff) (cmds : List (List String))
    (h : dirsLoop true checkpointsOnly ckName runIds project entity dirs = .ok (effs, cmds)) :
    ∀ e ∈ effs, ∃ msg, e = Eff.print msg := by
  induction dirs generalizing effs cmds with
  | nil =>
    simp only [dirsLoop, Except.ok.injEq, Prod.mk.injEq] at h
    rw [← h.1]
    simp
  | cons d rest ih =>
    simp only [dirsLoop] at h
    rcases hd : processDir true checkpointsOnly ckName runIds project entity d with e0 | p0
    · rw [hd] at h; simp at h
    · rw [hd] at h
      rcases hr : dirsLoop true checkpointsOnly ckName runIds project entity rest with
        e1 | p1
      · rw [hr] at h; simp at h
      · rw [hr] at h
        obtain ⟨effs0, cmds0⟩ := p0
        obtain ⟨effs1, cmds1⟩ := p1
        simp only [Except.ok.injEq, Prod.mk.injEq] at h
        intro e he
        rw [← h.1] at he
        rcases List.mem_append.1 he with he0 | he1
        · exact processDir_dry_effects checkpointsOnly ckName runIds project entity d
            effs0 cmds0 hd e he0
        · exact ih effs1 cmds1 hr e he1

/-- Shape of a dry upload run: unlinks of the missing symlinks, the loop's
print effects, and the printed command list. -/
theorem upload_runs_dry_eq (removeMissing : Bool) (checkpointsOnly : Bool)
    (ckName : Option String) (runIds : List String) (project : String) (entity : String)
    (dirs : List WandbDirInfo) (le : List Eff) (cmds : List (List String))
    (hdl : dirsLoop true checkpointsOnly ckName runIds project entity dirs = .ok (le, cmds))
    (hrm : ¬ (0 < (missingSymlinks dirs).length ∧ ¬ removeMissing)) :
    upload_runs true removeMissing checkpointsOnly ckName runIds project entity dirs
      = .ok ((missingSymlinks dirs).map Eff.unlink ++ le ++ [Eff.printCommands cmds]) := by
  simp only [upload_runs, hdl]
  rw [if_neg hrm]
  simp

/-- On a dry run, every file-download step only prints. -/
theorem downloadFileEffs_dry_prints (overwriteExisting : Bool) (f : LocalFile) :
    ∀ e ∈ downloadFileEffs true overwriteExisting f, ∃ msg, e = Eff.print msg := by
  intro e he
  rcases hex : f.existsLocally <;> rcases how : overwriteExisting <;>
    simp [downloadFileEffs, hex, how] at he <;>
    first
      | exact ⟨_, he⟩
      | rcases he with he | he <;> exact ⟨_, he⟩

/-- On a dry run, a downloaded run's effects are prints plus the unguarded
`mkdir` of its local directory. -/
theorem downloadRunEffs_dry_char (overwriteExisting : Bool) (checkpointsOnly : Bool)
    (ckName : String) (resultsDir : String) (r : DRun) :
    ∀ e ∈ downloadRunEffs true overwriteExisting checkpointsOnly ckName resultsDir r,
      (∃ msg, e = Eff.print msg) ∨ e = Eff.mkdir (resultsDir ++ "/" ++ r.name) := by
  intro e he
  cases checkpointsOnly with
  | false =>
    simp only [downloadRunEffs, List.cons_append, List.nil_append, List.mem_cons] at he
    rcases he with rfl | he
    · exact Or.inl ⟨_, rfl⟩
    rcases he with rfl | he
    · exact Or.inr rfl
    rw [if_pos (by simp)] at he
    obtain ⟨f, hf, hef⟩ := List.mem_flatMap.1 he
    exact Or.inl (downloadFileEffs_dry_prints overwriteExisting f e hef)
  | true =>
    simp [downloadRunEffs] at he
    rcases he with rfl | rfl | rfl
    · exact Or.inl ⟨_, rfl⟩
    · exact Or.inr rfl
    · exact Or.inl ⟨_, rfl⟩

/-- C2 amended: a dry-run invocation of the upload/sync path invokes no
subprocess, creates no symlink, downloads no file and creates no directory,
and still prints the command list; its only filesystem mutations are the
removals of already-dangling symlinks performed by the missing-symlink
cleanup (present even under dry-run).  A dry-run download invocation
downloads nothing and runs no subprocess, and still prints each file action,
but it does create the local run directories. -/
theorem C2_amended_dry_run (removeMissing : Bool) (checkpointsOnly : Bool)
    (ckName : Option String) (runIds : List String) (project : String) (entity : String)
    (dirs : List WandbDirInfo) (overwriteExisting : Bool) (checkpointsOnly2 : Bool)
    (ckName2 : String) (resultsDir : String) (runs : List DRun) :
    (∀ effs, upload_runs true removeMissing checkpointsOnly ckName runIds project entity dirs
        = .ok effs →
      (∀ c, Eff.subprocessRun c ∉ effs)
      ∧ (∀ s d, Eff.symlinkCreate s d ∉ effs)
      ∧ (∀ f, Eff.download f ∉ effs)
      ∧ (∀ d2, Eff.mkdir d2 ∉ effs)
      ∧ (∀ p, Eff.unlink p ∈ effs → p ∈ missingSymlinks dirs)
      ∧ (∃ cmds, Eff.printCommands cmds ∈ effs))
    ∧ (∀ f, Eff.download f
        ∉ download_runs true overwriteExisting checkpointsOnly2 ckName2 resultsDir runs)
    ∧ (∀ c, Eff.subprocessRun c
        ∉ download_runs true overwriteExisting checkpointsOnly2 ckName2 resultsDir runs)
    ∧ (∀ fl : LocalFile, Eff.print ("Downloading " ++ fl.name)
        ∈ downloadFileEffs true overwriteExisting fl) := by
  refine ⟨?_, ?_, ?_, ?_⟩
  · intro effs h
    by_cases hrm : 0 < (missingSymlinks dirs).length ∧ ¬ removeMissing
    · simp [upload_runs, hrm] at h
    · rcases hdl : dirsLoop true checkpointsOnly ckName runIds project entity dirs with
        e0 | p0
      · simp only [upload_runs, hdl] at h
        split at h <;> simp at h
      · obtain ⟨le, cmds⟩ := p0
        rw [upload_runs_dry_eq removeMissing checkpointsOnly ckName runIds project entity
          dirs le cmds hdl hrm] at h
        have heks : effs
            = (missingSymlinks dirs).map Eff.unlink ++ le ++ [Eff.printCommands cmds] := by
          cases h
          rfl
        subst heks
        have hle := dirsLoop_dry_effects checkpointsOnly ckName runIds project entity
          dirs le cmds hdl
        have hchar : ∀ e ∈ (missingSymlinks dirs).map Eff.unlink ++ le
              ++ [Eff.printCommands cmds],
            (∃ p ∈ missingSymlinks dirs, e = Eff.unlink p) ∨ (∃ msg, e = Eff.print msg)
              ∨ e = Eff.printCommands cmds := by
          intro e hee
          rcases List.mem_append.1 hee with h1 | h1
          · rcases List.mem_append.1 h1 with h2 | h2
            · obtain ⟨p, hp, rfl⟩ := List.mem_map.1 h2
              exact Or.inl ⟨p, hp, rfl⟩
            · exact Or.inr (Or.inl (hle _ h2))
          · simp only [List.mem_singleton] at h1
            exact Or.inr (Or.inr h1)
        refine ⟨?_, ?_, ?_, ?_, ?_, ⟨cmds, ?_⟩⟩
        · intro c hc
          rcases hchar _ hc with ⟨p, _, he⟩ | ⟨m, he⟩ | he <;> simp at he
        · intro s d hc
          rcases hchar _ hc with ⟨p, _, he⟩ | ⟨m, he⟩ | he <;> simp at he
        · intro f hc
          rcases hchar _ hc with ⟨p, _, he⟩ | ⟨m, he⟩ | he <;> simp at he
        · intro d2 hc
          rcases hchar _ hc with ⟨p, _, he⟩ | ⟨m, he⟩ | he <;> simp at he
        · intro p hp
          rcases hchar _ hp with ⟨q, hq, he⟩ | ⟨m, he⟩ | he
          · cases he
            exact hq
          · simp at he
          · simp at he
        · exact List.mem_append_right _ (List.mem_singleton.2 rfl)
  · intro f hf
    obtain ⟨r, hr, he⟩ := List.mem_flatMap.1 hf
    rcases downloadRunEffs_dry_char overwriteExisting checkpointsOnly2 ckName2 resultsDir
      r _ he with ⟨m, hm⟩ | hm <;> simp at hm
  · intro c hc
    obtain ⟨r, hr, he⟩ := List.mem_flatMap.1 hc
    rcases downloadRunEffs_dry_char overwriteExisting checkpointsOnly2 ckName2 resultsDir
      r _ he with ⟨m, hm⟩ | hm <;> simp at hm
  · intro fl
    simp [downloadFileEffs]

/-- Witness for C5 at a concrete value and two different row lists. -/
theorem C5_witness :
    resolveStep "step" 42 none [] = .ok 42
    ∧ resolveStep "step" 42 none [] = resolveStep "step" 42 none [⟨1, []⟩] :=
  C5_step_metric_identity 42 none [] [⟨1, []⟩]

/-- Witness for C9: the concrete attribute error raised when the forked run
directory is missing. -/
theorem C9_witness :
    forkDirCheck false true = .error "AttributeError: create_forked_run_dir" :=
  C9_unreachable_mkdir_branch.2.1 true

/-- Witness for the amended C2 at the concrete dry upload run of the
counterexample input: its effect list has no subprocess, symlink, download or
mkdir effect, its only unlink is a recorded missing symlink, and the command
list is printed. -/
theorem C2_witness :
    (∀ c, Eff.subprocessRun c ∉ ([Eff.unlink "run-abc/files/ck.pth",
        Eff.printCommands [["wandb", "sync", "--project", "proj", "--entity", "ent",
          "run-abc"]]] : List Eff))
    ∧ (∀ s d, Eff.symlinkCreate s d ∉ ([Eff.unlink "run-abc/files/ck.pth",
        Eff.printCommands [["wandb", "sync", "--project", "proj", "--entity", "ent",
          "run-abc"]]] : List Eff))
    ∧ (∀ f, Eff.download f ∉ ([Eff.unlink "run-abc/files/ck.pth",
        Eff.printCommands [["wandb", "sync", "--project", "proj", "--entity", "ent",
          "run-abc"]]] : List Eff))
    ∧ (∀ d2, Eff.mkdir d2 ∉ ([Eff.unlink "run-abc/files/ck.pth",
        Eff.printCommands [["wandb", "sync", "--project", "proj", "--entity", "ent",
          "run-abc"]]] : List Eff))
    ∧ (∀ p, Eff.unlink p ∈ ([Eff.unlink "run-abc/files/ck.pth",
        Eff.printCommands [["wandb", "sync", "--project", "proj", "--entity", "ent",
          "run-abc"]]] : List Eff) →
        p ∈ missingSymlinks
          [⟨"d", [⟨"run-abc", [⟨"ck.pth", true, false⟩]⟩], "abc", 0, false, false⟩])
    ∧ (∃ cmds, Eff.printCommands cmds ∈ ([Eff.unlink "run-abc/files/ck.pth",
        Eff.printCommands [["wandb", "sync", "--project", "proj", "--entity", "ent",
          "run-abc"]]] : List Eff)) :=
  (C2_amended_dry_run true false none ["abc"] "proj" "ent"
    [⟨"d", [⟨"run-abc", [⟨"ck.pth", true, false⟩]⟩], "abc", 0, false, false⟩]
    false false "ck" "results" [⟨"r1", []⟩]).1 _ rfl
